import Mathlib

/-!
Verification development for the DragDropCsv QGIS plugin
(`src/drag_drop_csv.py` and `src/csv_settings_dialog.py`).

The plugin's pure logic is embedded shallowly: host collaborators (the Qt
toolkit, the QGIS vector data API, the `chardet` library, the `json` module
and the `QSettings` store) appear as explicit oracle parameters or as explicit
state, and Python strings, rows and dictionaries become Lean `String`s, lists
and lookup functions.  Files are already-decoded lists of lines; the stdlib
`csv` row splitter is modeled for quote-free input (a blank line yields the
empty row, any other line is split on the delimiter character).
-/

namespace DragDropCsvModel

/-! ## String helpers mirroring the Python primitives used by the plugin -/

/-- Boolean test that `pre` is an initial segment of `l`; model of Python
`str.startswith` at the character-list level. -/
def leadMatch : List Char → List Char → Bool
  | [], _ => true
  | _ :: _, [] => false
  | a :: as, b :: bs => a == b && leadMatch as bs

/-- Boolean substring search: `subSearch needle hay` is true exactly when
`needle` occurs contiguously in `hay`; model of Python `in` on strings. -/
def subSearch (needle : List Char) : List Char → Bool
  | [] => needle.isEmpty
  | a :: rest => leadMatch needle (a :: rest) || subSearch needle rest

/-- Model of the Python substring test `sub in s`. -/
def strContains (s sub : String) : Bool := subSearch sub.data s.data

/-- Model of Python `s.startswith(pre)`. -/
def strStarts (s pre : String) : Bool := leadMatch pre.data s.data

/-- Model of Python `s.endswith(suf)`. -/
def strEnds (s suf : String) : Bool := leadMatch suf.data.reverse s.data.reverse

/-- Model of Python `s.lower()`. -/
def strLower (s : String) : String := String.mk (s.data.map Char.toLower)

/-- Characters removed by Python `str.strip()` with no argument. -/
def pyWhitespace : List Char := [' ', '\t', '\n', '\r', '\x0b', '\x0c']

/-- Model of Python `s.strip(chars)`: remove the characters of `cs` from both
ends of `s`. -/
def pyStrip (cs : List Char) (s : String) : String :=
  String.mk (((s.data.dropWhile (fun c => cs.contains c)).reverse.dropWhile
    (fun c => cs.contains c)).reverse)

/-- Model of Python `s.strip()` with no argument. -/
def pyStripWs (s : String) : String := pyStrip pyWhitespace s

/-- Quote characters removed by the source's `col.strip('"\'')` calls. -/
def quoteChars : List Char := ['"', '\'']

/-- Split a character list on a single delimiter character, keeping empty
fields; the result always has one more entry than there are delimiters. -/
def splitByChar (d : Char) : List Char → List (List Char)
  | [] => [[]]
  | a :: rest =>
    match splitByChar d rest with
    | [] => [[]]
    | h :: t => if a == d then [] :: h :: t else (a :: h) :: t

/-- Model of one row produced by the Python `csv` reader with delimiter `d` on
a single quote-free physical line: a blank line yields the empty row, any
other line is split on the delimiter. -/
def csvSplitRow (d : Char) (line : String) : List String :=
  if line = "" then [] else (splitByChar d line.data).map String.mk

/-- Join strings with a separator. -/
def strJoinSep (sep : String) : List String → String
  | [] => ""
  | [a] => a
  | a :: rest => a ++ sep ++ strJoinSep sep rest

/-- Join character lists with a single joining character. -/
def joinWithChar (d : Char) : List (List Char) → List Char
  | [] => []
  | [a] => a
  | a :: rest => a ++ d :: joinWithChar d rest

/-- Model of `os.path.basename` for forward-slash paths. -/
def pyBasename (p : String) : String :=
  String.mk ((splitByChar '/' p.data).getLastD [])

/-- Model of `os.path.splitext(name)[0]`: drop the last dot-extension. -/
def pySplitextRoot (name : String) : String :=
  let parts := splitByChar '.' name.data
  if parts.length ≤ 1 then name else String.mk (joinWithChar '.' parts.dropLast)

/-- Python f-string rendering of an optional argument (`None` prints as the
text "None"). -/
def optStr : Option String → String
  | none => "None"
  | some s => s

/-- Python truthiness of an optional string: `None` and the empty string are
falsy. -/
def optTruthy : Option String → Bool
  | none => false
  | some s => s != ""

/-! ## Settings persistence (`save_settings` / `load_settings`) -/

/-- Key under which the plugin persists its last-used settings. -/
def settingsKey : String := "drag_drop_csv/last_settings"

/-- Model of `QSettings.setValue` on a store mapping keys to stored strings. -/
def setValue (store : String → Option String) (k v : String) : String → Option String :=
  fun q => if q = k then some v else store q

/-- Model of `DragDropCsv.save_settings`: serialize the settings dictionary
with the JSON library (`dumps`, a stdlib collaborator) and store the resulting
string under `settingsKey`. -/
def save_settings {α : Type} (dumps : α → String) (store : String → Option String)
    (d : α) : String → Option String :=
  setValue store settingsKey (dumps d)

/-- Model of `DragDropCsv.load_settings`: read the stored value and, when it
is present and truthy (non-empty), deserialize it with the JSON library's
`loads`; otherwise return `None`. -/
def load_settings {α : Type} (loads : String → α) (store : String → Option String) :
    Option α :=
  match store settingsKey with
  | some s => if s ≠ "" then some (loads s) else none
  | none => none

/-- Serializer producing the shape Python `json.dumps` gives a flat
string-valued dictionary; used to instantiate the JSON collaborator. -/
def dumpsStrDict (d : List (String × String)) : String :=
  "\x7b" ++ strJoinSep ", " (d.map (fun p => "\"" ++ p.1 ++ "\": \"" ++ p.2 ++ "\"")) ++ "\x7d"

/-- Collect the double-quoted substrings of a character list, in order. -/
def lexQuoted (inStr : Bool) (cur : List Char) : List Char → List String
  | [] => []
  | c :: rest =>
    if c == '"' then
      if inStr then String.mk cur.reverse :: lexQuoted false [] rest
      else lexQuoted true [] rest
    else if inStr then lexQuoted inStr (c :: cur) rest
    else lexQuoted inStr cur rest

/-- Pair up a flat alternating key/value list. -/
def pairUp : List String → List (String × String)
  | k :: v :: rest => (k, v) :: pairUp rest
  | _ => []

/-- Deserializer inverting `dumpsStrDict` on quote-free keys and values; a
small model of `json.loads` for flat string dictionaries. -/
def loadsStrDict (s : String) : List (String × String) :=
  pairUp (lexQuoted false [] s.data)

/-- Hard-coded default settings written by `process_csv` when the "Remember
these settings" checkbox is unchecked. -/
def defaultSettings : List (String × String) :=
  [("delimiter", "Comma (,)"), ("encoding", "UTF-8"),
   ("geometry_type", "X/Y columns"), ("crs", "EPSG:4326")]

/-- Model of the settings-saving step of `DragDropCsv.process_csv` that runs
once the settings dialog is accepted: build the settings dictionary from the
dialog's current selections and save either it (checkbox checked) or the
hard-coded defaults (checkbox unchecked). -/
def process_csv_save_step (dumps : List (String × String) → String)
    (remember_checked : Bool) (delimiter_text encoding_text geometry_text crs_text : String)
    (store : String → Option String) : String → Option String :=
  let settings := [("delimiter", delimiter_text), ("encoding", encoding_text),
    ("geometry_type", geometry_text), ("crs", crs_text)]
  if remember_checked then save_settings dumps store settings
  else save_settings dumps store defaultSettings

/-! ## Drop handlers (`handle_drop_event` / `handle_main_window_drop`) -/

/-- Kind of processing selected for a dropped file. -/
inductive ProcKind
  | gzipped
  | plain
deriving DecidableEq

/-- Observable outcome of a drop handler: the boolean returned to Qt, which
file (if any) was handed to processing and how, and whether the event was
accepted (`some true`), ignored (`some false`) or left untouched (`none`). -/
structure DropOutcome where
  result : Bool
  processed : Option (String × ProcKind)
  accepted : Option Bool
deriving DecidableEq

/-- Model of the source test `file_path and (file_path.lower().endswith
('.csv.gz') or file_path.lower().endswith('.csv'))`. -/
def isCsvDroppable (path : String) : Bool :=
  path != "" && (strEnds (strLower path) ".csv.gz" || strEnds (strLower path) ".csv")

/-- Processing kind the handlers choose for a matching path. -/
def dropKind (path : String) : ProcKind :=
  if strEnds (strLower path) ".csv.gz" then ProcKind.gzipped else ProcKind.plain

/-- Loop body shared verbatim by both drop handlers: scan the URL list (as
local-file paths, "" for a non-local URL) for the first path with a CSV
extension and hand it to processing; `proc p = true` models processing that
completes, `false` processing that raises (caught, warning shown, event
ignored). -/
def dropLoop (proc : String → Bool) : List String → DropOutcome
  | [] => { result := false, processed := none, accepted := none }
  | p :: rest =>
    if isCsvDroppable p then
      if proc p then
        { result := true, processed := some (p, dropKind p), accepted := some true }
      else
        { result := false, processed := some (p, dropKind p), accepted := some false }
    else dropLoop proc rest

/-- Model of `DragDropCsv.handle_drop_event` (drops on the layer tree view);
`hasUrls` models `mime_data.hasUrls()`. -/
def handle_drop_event (proc : String → Bool) (hasUrls : Bool) (urls : List String) :
    DropOutcome :=
  if hasUrls then dropLoop proc urls
  else { result := false, processed := none, accepted := none }

/-- Model of `DragDropCsv.handle_main_window_drop` (drops on the main window);
its source body is the same loop as `handle_drop_event` up to log text. -/
def handle_main_window_drop (proc : String → Bool) (hasUrls : Bool) (urls : List String) :
    DropOutcome :=
  if hasUrls then dropLoop proc urls
  else { result := false, processed := none, accepted := none }

/-! ## Encoding detection (`detect_encoding`) -/

/-- Fixed trial list used when chardet's confidence is low. -/
def common_encodings : List String :=
  ["utf-8", "windows-1251", "cp1251", "ascii", "iso-8859-1"]

/-- Model of chardet's answer: the reported encoding (possibly `None`) and
its confidence, a probability modeled as a rational number. -/
structure ChardetResult where
  encoding : Option String
  confidence : ℚ

/-- Model of `DragDropCsv.detect_encoding`.  `raised` models any exception
escaping the detection body (unreadable file, unknown codec name, ...);
`decodes e` models "opening the file with encoding `e` and reading its first
line raises no UnicodeDecodeError".  The source's float literal `0.7` is the
rational `7/10`. -/
def detect_encoding (raised : Bool) (res : ChardetResult) (decodes : String → Bool) :
    String :=
  if raised then "utf-8"
  else
    match (if res.confidence < mkRat 7 10 then common_encodings.find? decodes else none) with
    | some e => e
    | none =>
      match res.encoding with
      | some e => if e != "" && decodes e then e else "utf-8"
      | none => "utf-8"

/-! ## CSV validation (`validate_csv`) -/

/-- Row-length check of `validate_csv`: scan the given data rows (the caller
passes at most five) and report the source's message for the first row whose
field count differs from the header's. -/
def checkRows (ncols : Nat) : List (List String) → Nat → Option String
  | [], _ => none
  | r :: rest, i =>
    if r.length ≠ ncols then
      some ("Row " ++ toString (i + 2) ++ " has " ++ toString r.length ++
        " columns, expected " ++ toString ncols)
    else checkRows ncols rest (i + 1)

/-- Model of `DragDropCsv.validate_csv` on an already-decoded file given as
its list of lines: strip the first line, parse it as the header, clean the
column names of surrounding quotes, then check the field count of at most the
first five data rows. -/
def validateLines (lines : List String) (delim : Char) : Except String (List String) :=
  let first_line := pyStripWs (lines.headD "")
  if first_line = "" then Except.error "CSV validation failed: File is empty"
  else
    let columns := csvSplitRow delim first_line
    if columns = [] then Except.error "CSV validation failed: No columns found in CSV"
    else
      let cleaned := columns.map (pyStrip quoteChars)
      match checkRows columns.length (((lines.drop 1).map (csvSplitRow delim)).take 5) 0 with
      | some msg => Except.error ("CSV validation failed: " ++ msg)
      | none => Except.ok cleaned

/-- Model of `DragDropCsv.validate_csv` including the open/decode step:
`none` input models a file that cannot be opened or decoded with the chosen
encoding, `oserr` the host's exception text. -/
def validate_csv (oserr : String) (input : Option (List String)) (delim : Char) :
    Except String (List String) :=
  match input with
  | none => Except.error ("CSV validation failed: " ++ oserr)
  | some lines => validateLines lines delim

/-! ## Layer URI construction (`create_layer_uri`) -/

/-- Validation step ending `create_layer_uri`: ask the host to materialize
the URI as a test layer; `hostCheck uri = none` models a valid layer,
`some msg` models `test_layer.error().message()` for an invalid one, in which
case the source raises. -/
def hostMatch (hostCheck : String → Option String) (u : String) : Except String String :=
  match hostCheck u with
  | none => Except.ok u
  | some msg => Except.error ("Invalid layer URI: " ++ msg)

/-- Model of `DragDropCsv.create_layer_uri`. -/
def create_layer_uri (hostCheck : String → Option String)
    (file_path delimiter encoding geometry_type : String)
    (x_col y_col wkt_col crs : Option String) : Except String String :=
  let fp0 := String.mk (file_path.data.map (fun c => if c == '\\' then '/' else c))
  let fp := if strStarts fp0 "/" then fp0 else "/" ++ fp0
  let delimiter_str := if delimiter = "\t" then "\\t" else delimiter
  let uri0 := "file://" ++ fp ++ "?type=csv&delimiter=" ++ delimiter_str ++
    "&encoding=" ++ encoding ++ "&detectTypes=yes"
  let uri1 :=
    if geometry_type = "No geometry" then uri0 ++ "&geometryType=none"
    else if geometry_type = "WKT" then uri0 ++ "&wktField=" ++ optStr wkt_col
    else if strContains geometry_type "X/Y columns" then
      uri0 ++ "&xField=" ++ optStr x_col ++ "&yField=" ++ optStr y_col
    else uri0
  let uri2 := if optTruthy crs then uri1 ++ "&crs=" ++ optStr crs else uri1
  hostMatch hostCheck uri2

/-! ## WKT geometry splitting (`process_wkt_geometries`) -/

/-- Feature built by `process_wkt_geometries`: the attribute values in field
order and the WKT text its geometry was parsed from. -/
structure QFeature where
  attrs : List String
  wkt : String
deriving DecidableEq

/-- Memory layer created by `process_wkt_geometries`. -/
structure QLayer where
  name : String
  uri : String
  features : List QFeature
deriving DecidableEq

/-- Append a feature to the bucket keyed `k`, creating the bucket at the end
on first use; models insertion into the Python dict of lists
`geometry_features` (Python dicts preserve insertion order). -/
def addToBucket (bs : List (String × List QFeature)) (k : String) (f : QFeature) :
    List (String × List QFeature) :=
  match bs with
  | [] => [(k, [f])]
  | b :: rest => if b.1 = k then (b.1, b.2 ++ [f]) :: rest else b :: addToBucket rest k f

/-- Row loop of `process_wkt_geometries`.  `wktType w` models
`QgsGeometry.fromWkt(w)` followed by `QgsWkbTypes.geometryDisplayString`,
returning `none` when the produced geometry is null or construction raises.
A row is its DictReader dictionary, modeled as a total lookup function with
`""` for missing or `None` values (both are falsy in the source's
`if not wkt` test). -/
def wktStep (wktType : String → Option String) (field_names : List String)
    (wkt_col : String) (acc : List (String × List QFeature)) (row : String → String) :
    List (String × List QFeature) :=
  if row wkt_col = "" then acc
  else
    match wktType (row wkt_col) with
    | none => acc
    | some t => addToBucket acc t { attrs := field_names.map row, wkt := row wkt_col }

/-- Bucketing fold of `process_wkt_geometries` over all parsed rows. -/
def wktBuckets (wktType : String → Option String) (field_names : List String)
    (wkt_col : String) (rows : List (String → String)) :
    List (String × List QFeature) :=
  rows.foldl (wktStep wktType field_names wkt_col) []

/-- Mapping from geometry display strings to QGIS memory-layer geometry
strings (`geom_type_map` in the source). -/
def geom_type_map (g : String) : String :=
  if g = "Point" then "Point"
  else if g = "Line" then "LineString"
  else if g = "LineString" then "LineString"
  else if g = "Polygon" then "Polygon"
  else if g = "MultiPoint" then "MultiPoint"
  else if g = "MultiLineString" then "MultiLineString"
  else if g = "MultiPolygon" then "MultiPolygon"
  else g

/-- Layer-creation loop of `process_wkt_geometries`: one memory layer per
bucket with a non-empty feature list (memory-layer construction by the host
is modeled as succeeding), with the geometry-type name suffix added only when
several geometry types were found. -/
def wktLayers (buckets : List (String × List QFeature)) (crs base_layer_name : String) :
    List QLayer :=
  (buckets.filter (fun b => !b.2.isEmpty)).map (fun b =>
    { name := if buckets.length = 1 then base_layer_name else base_layer_name ++ "_" ++ b.1,
      uri := geom_type_map b.1 ++ "?crs=" ++ crs,
      features := b.2 })

/-- Model of `DragDropCsv.process_wkt_geometries`: bucket the parsed rows by
geometry type, then create one memory layer per bucket. -/
def process_wkt_geometries (wktType : String → Option String) (fieldnames : List String)
    (rows : List (String → String)) (wkt_col crs base_layer_name : String) :
    List QLayer :=
  wktLayers (wktBuckets wktType (fieldnames.filter (fun f => f != wkt_col)) wkt_col rows)
    crs base_layer_name

/-- Features stored under key `t`; the empty list when the bucket is absent. -/
def bucketGet (t : String) : List (String × List QFeature) → List QFeature
  | [] => []
  | b :: rest => if b.1 = t then b.2 else bucketGet t rest

/-! ## Column auto-detection (`CsvSettingsDialog.set_columns`) -/

/-- Substrings marking a column as an X coordinate candidate. -/
def xSubs : List String := ["x", "longitude", "lon", "lng", "easting"]

/-- Substrings marking a column as a Y coordinate candidate. -/
def ySubs : List String := ["y", "latitude", "lat", "northing"]

/-- Substrings marking a column as a WKT/geometry candidate. -/
def wktSubs : List String := ["wkt", "geometry", "geom", "shape", "the_geom"]

/-- Model of `any(x in col_lower for x in subs)` on the lowered column name. -/
def matchesAny (subs : List String) (col : String) : Bool :=
  subs.any (fun sub => strContains (strLower col) sub)

/-- Geometry preselection outcome of `CsvSettingsDialog.set_columns`. -/
inductive GeomChoice
  | wktGeom (col : String)
  | pointXY (x y : String)
  | noGeometry
deriving DecidableEq

/-- Classification loop of `set_columns`: returns the `x_cols`, `y_cols` and
`wkt_cols` lists in column order (a column already matched as X is never
added to `y_cols`, mirroring the source's `elif`). -/
def classifyStep (acc : List String × List String × List String) (col : String) :
    List String × List String × List String :=
  (if matchesAny xSubs col then acc.1 ++ [col] else acc.1,
   if !matchesAny xSubs col && matchesAny ySubs col then acc.2.1 ++ [col] else acc.2.1,
   if matchesAny wktSubs col then acc.2.2 ++ [col] else acc.2.2)

/-- Classification fold of `set_columns` over all cleaned column names. -/
def classifyColumns (cleaned : List String) : List String × List String × List String :=
  cleaned.foldl classifyStep ([], [], [])

/-- Model of `CsvSettingsDialog.set_columns` restricted to its geometry
preselection outcome: prefer WKT, else X/Y when both found, else no
geometry. -/
def set_columns (columns : List String) : GeomChoice :=
  let cleaned := columns.map (pyStrip quoteChars)
  let c := classifyColumns cleaned
  if c.2.2 ≠ [] then GeomChoice.wktGeom (c.2.2.headD "")
  else if c.1 ≠ [] ∧ c.2.1 ≠ [] then GeomChoice.pointXY (c.1.headD "") (c.2.1.headD "")
  else GeomChoice.noGeometry

/-! ## Gzip extraction and temporary-file lifecycle (`process_gzipped_csv`) -/

/-- Plugin-relevant state: the files present on disk, the plugin's
`temp_files` tracking list, and the log of attempted deletions. -/
structure FSState where
  existing : List String
  tracked : List String
  attempted : List String
deriving DecidableEq

/-- Loop body of `cleanup_temp_files`: for each tracked file that still
exists, attempt to delete it (`unlinkOk f = false` models `os.unlink`
raising, which is caught and only logged). -/
def cleanupLoop (unlinkOk : String → Bool) : List String → FSState → FSState
  | [], st => st
  | f :: rest, st =>
    let st' :=
      if st.existing.contains f then
        { st with attempted := st.attempted ++ [f],
                  existing := if unlinkOk f then st.existing.erase f else st.existing }
      else st
    cleanupLoop unlinkOk rest st'

/-- Model of `DragDropCsv.cleanup_temp_files`: attempt to delete every
tracked file that still exists, then reset `temp_files` to the empty list. -/
def cleanup_temp_files (unlinkOk : String → Bool) (st : FSState) : FSState :=
  let st' := cleanupLoop unlinkOk st.tracked st
  { st' with tracked := [] }

/-- Temporary path `os.path.join(tempfile.gettempdir(), base_name)` computed
by `process_gzipped_csv` (the `.gz` suffix is removed by `splitext`). -/
def gzTempPath (tempDir file_path : String) : String :=
  tempDir ++ "/" ++ pySplitextRoot (pyBasename file_path)

/-- State reached after a successful gzip extraction: the extracted file
exists on disk and its path has been appended to `temp_files`. -/
@[reducible] def gzState (tempDir file_path : String) (st : FSState) : FSState :=
  { st with
    existing := if st.existing.contains (gzTempPath tempDir file_path) then st.existing
      else st.existing ++ [gzTempPath tempDir file_path],
    tracked := st.tracked ++ [gzTempPath tempDir file_path] }

/-- Model of `DragDropCsv.process_gzipped_csv`: extract, track the temporary
file, process.  `extractOk` models the gzip extraction completing; `procOk`
models the nested `process_csv` call completing; `errExtract` / `errProc` are
the corresponding exception texts.  On any exception the handler cleans up
the temporary files and re-raises with the wrapping message. -/
def process_gzipped_csv (unlinkOk : String → Bool) (tempDir : String)
    (extractOk procOk : Bool) (errExtract errProc : String)
    (file_path : String) (st : FSState) : Except String Unit × FSState :=
  if extractOk then
    let st1 := gzState tempDir file_path st
    if procOk then (Except.ok (), st1)
    else (Except.error ("Error processing CSV.GZ file: " ++ errProc),
      cleanup_temp_files unlinkOk st1)
  else
    (Except.error ("Error processing CSV.GZ file: " ++ errExtract),
      cleanup_temp_files unlinkOk st)

/-! ## Theorems -/

/-- Helper: the `dropLoop` body agrees with a `find?` description of the URL
scan. -/
theorem dropLoop_find (proc : String → Bool) (urls : List String) :
    (urls.find? isCsvDroppable = none →
      dropLoop proc urls = { result := false, processed := none, accepted := none }) ∧
    (∀ p, urls.find? isCsvDroppable = some p →
      dropLoop proc urls =
        { result := proc p, processed := some (p, dropKind p), accepted := some (proc p) }) := by
  induction urls with
  | nil => exact ⟨fun _ => rfl, fun p h => by simp at h⟩
  | cons a rest ih =>
    constructor
    · intro h
      cases ha : isCsvDroppable a
      · rw [List.find?_cons_of_neg _ (by simp [ha])] at h
        simpa [dropLoop, ha] using ih.1 h
      · rw [List.find?_cons_of_pos _ ha] at h
        cases h
    · intro p h
      cases ha : isCsvDroppable a
      · rw [List.find?_cons_of_neg _ (by simp [ha])] at h
        simpa [dropLoop, ha] using ih.2 p h
      · rw [List.find?_cons_of_pos _ ha] at h
        cases h
        cases hp : proc a <;> simp [dropLoop, ha, hp]

/-- C5: settings persistence round-trips through JSON: whenever the JSON
collaborator satisfies `loads (dumps d) = d` and serializes `d` to a
non-empty string, `load_settings` after `save_settings d` returns `d`; and
a store holding no value under `settingsKey` makes `load_settings` return
`None`. -/
theorem settings_save_load_roundtrip {α : Type} (dumps : α → String) (loads : String → α)
    (store : String → Option String) (d : α)
    (hts : loads (dumps d) = d) (hne : dumps d ≠ "") :
    load_settings loads (save_settings dumps store d) = some d ∧
    (∀ s : String → Option String, s settingsKey = none → load_settings loads s = none) := by
  constructor
  · simp [load_settings, save_settings, setValue, hne, hts]
  · intro s hs
    simp [load_settings, hs]

/-- Witness for C5 at the plugin's default settings dictionary, the flat
string-dictionary JSON model, and the empty settings store. -/
theorem settings_save_load_roundtrip_witness :
    load_settings loadsStrDict (save_settings dumpsStrDict (fun _ => none) defaultSettings) =
      some defaultSettings ∧
    load_settings loadsStrDict (fun _ => none) = none :=
  ⟨(settings_save_load_roundtrip dumpsStrDict loadsStrDict (fun _ => none) defaultSettings
      (by decide) (by decide)).1,
   (settings_save_load_roundtrip dumpsStrDict loadsStrDict (fun _ => none) defaultSettings
      (by decide) (by decide)).2 (fun _ => none) rfl⟩

/-- C9: accepting the settings dialog never leaves the persisted settings
unwritten: whatever the store held before, afterwards `settingsKey` holds the
serialization of the dialog's current selections when the "remember" checkbox
is checked, and of the hard-coded defaults when it is unchecked. -/
theorem process_csv_save_overwrites (dumps : List (String × String) → String)
    (checked : Bool) (dt et gt ct : String) (store : String → Option String) :
    process_csv_save_step dumps checked dt et gt ct store settingsKey =
      some (dumps (if checked then
        [("delimiter", dt), ("encoding", et), ("geometry_type", gt), ("crs", ct)]
        else defaultSettings)) := by
  cases checked <;> simp [process_csv_save_step, save_settings, setValue]

/-- C3 counterexample: with MIME URLs present and a URL whose local path ends
in '.csv', a processing failure makes `handle_drop_event` return False and
ignore the event, contradicting the claim that the handler returns True with
the event accepted whenever such a file exists. -/
theorem handle_drop_true_claim_cex :
    isCsvDroppable "data.csv" = true ∧
    handle_drop_event (fun _ => false) true ["data.csv"] =
      { result := false, processed := some ("data.csv", ProcKind.plain),
        accepted := some false } := by
  decide

/-- C3 (amended): both drop handlers behave identically; they hand only the
first URL whose local path ends case-insensitively in '.csv' or '.csv.gz' to
processing ('.csv.gz' via gzip extraction, '.csv' directly), return True and
accept the event exactly when that processing completes, return False and
ignore the event when it raises, and return False without processing any file
when the MIME data has no URLs or no URL has such an extension. -/
theorem handle_drop_first_csv (proc : String → Bool) (hasUrls : Bool) (urls : List String) :
    handle_drop_event proc hasUrls urls = handle_main_window_drop proc hasUrls urls ∧
    ((hasUrls = false ∨ urls.find? isCsvDroppable = none) →
      handle_drop_event proc hasUrls urls =
        { result := false, processed := none, accepted := none }) ∧
    (∀ p, hasUrls = true → urls.find? isCsvDroppable = some p →
      handle_drop_event proc hasUrls urls =
        { result := proc p, processed := some (p, dropKind p), accepted := some (proc p) }) := by
  refine ⟨rfl, ?_, ?_⟩
  · rintro (h | h)
    · subst h; rfl
    · cases hasUrls
      · rfl
      · simpa [handle_drop_event] using (dropLoop_find proc urls).1 h
  · intro p hu h
    subst hu
    simpa [handle_drop_event] using (dropLoop_find proc urls).2 p h

/-- Witness for C3 at a URL list whose second entry is the first CSV match
and a processing oracle that succeeds on it. -/
theorem handle_drop_first_csv_witness :
    handle_drop_event (fun p => p == "b.CSV") true ["a.txt", "b.CSV", "c.csv"] =
      { result := true, processed := some ("b.CSV", ProcKind.plain), accepted := some true } :=
  (handle_drop_first_csv (fun p => p == "b.CSV") true ["a.txt", "b.CSV", "c.csv"]).2.2
    "b.CSV" rfl (by decide)

/-- C4: `create_layer_uri` builds exactly the locator string described by the
specification — 'file://', the path with backslashes replaced by '/' and a
leading '/' prepended when absent, the fixed csv query with the delimiter
rendered as the two characters backslash-t for a tab, then the geometry
fragment selected by `geometry_type`, then '&crs=' + crs when crs is
non-empty — and raises exactly when the host reports the resulting layer
invalid. -/
theorem create_layer_uri_format (hostCheck : String → Option String)
    (file_path delimiter encoding geometry_type : String)
    (x_col y_col wkt_col crs : Option String) :
    create_layer_uri hostCheck file_path delimiter encoding geometry_type
        x_col y_col wkt_col crs =
      (let fp0 := String.mk (file_path.data.map (fun c => if c == '\\' then '/' else c));
       let u := "file://" ++ (if strStarts fp0 "/" then fp0 else "/" ++ fp0) ++
         "?type=csv&delimiter=" ++ (if delimiter = "\t" then "\\t" else delimiter) ++
         "&encoding=" ++ encoding ++ "&detectTypes=yes" ++
         (if geometry_type = "No geometry" then "&geometryType=none"
          else if geometry_type = "WKT" then "&wktField=" ++ optStr wkt_col
          else if strContains geometry_type "X/Y columns" then
            "&xField=" ++ optStr x_col ++ "&yField=" ++ optStr y_col
          else "") ++
         (if optTruthy crs then "&crs=" ++ optStr crs else "");
       hostMatch hostCheck u) := by
  simp only [create_layer_uri]
  refine congrArg (hostMatch hostCheck) ?_
  split_ifs <;>
    · apply String.ext
      simp [String.data_append, List.append_assoc]

/-- Helper: `headD` of a list whose `head?` is known. -/
theorem headD_of_head? {α : Type} {l : List α} {a : α} (d : α) (h : l.head? = some a) :
    l.headD d = a := by
  cases l with
  | nil => cases h
  | cons x t => cases h; rfl

/-- Helper: `find?` is the head of the filtered list. -/
theorem find?_eq_head?_filter (p : String → Bool) (l : List String) :
    l.find? p = (l.filter p).head? := by
  induction l with
  | nil => rfl
  | cons a t ih =>
    by_cases hp : p a = true
    · rw [List.find?_cons_of_pos _ hp, List.filter_cons_of_pos hp]; rfl
    · rw [List.find?_cons_of_neg _ (by simp [hp]), List.filter_cons_of_neg (by simp [hp]), ih]

/-- Helper: `find?` over a filtered list is the head of the conjunctive
filter. -/
theorem find?_filter_aux (p q : String → Bool) (l : List String) :
    (l.filter p).find? q = (l.filter (fun a => p a && q a)).head? := by
  induction l with
  | nil => rfl
  | cons a t ih =>
    by_cases hp : p a = true
    · by_cases hq : q a = true
      · rw [List.filter_cons_of_pos hp, List.find?_cons_of_pos _ hq,
          List.filter_cons_of_pos (by simp [hp, hq])]
        rfl
      · rw [List.filter_cons_of_pos hp, List.find?_cons_of_neg _ (by simp [hq]),
          List.filter_cons_of_neg (by simp [hp, hq]), ih]
    · rw [List.filter_cons_of_neg (by simp [hp]), List.filter_cons_of_neg (by simp [hp]), ih]

/-- C6: `detect_encoding` is total and never returns an empty/None encoding;
when any exception escapes detection it returns 'utf-8'; when chardet's
confidence is below 0.7 it returns the first encoding of the fixed trial list
that decodes the first line; when that yields nothing (or confidence is at
least 0.7) it returns chardet's detected encoding provided it is truthy and
decodes the first line; and in every remaining case it returns 'utf-8'. -/
theorem detect_encoding_total_spec (raised : Bool) (res : ChardetResult)
    (decodes : String → Bool) :
    detect_encoding raised res decodes ≠ "" ∧
    (raised = true → detect_encoding raised res decodes = "utf-8") ∧
    (∀ e, raised = false → res.confidence < mkRat 7 10 →
      common_encodings.find? decodes = some e →
      detect_encoding raised res decodes = e) ∧
    (∀ e, raised = false →
      (¬ res.confidence < mkRat 7 10 ∨ common_encodings.find? decodes = none) →
      res.encoding = some e → e ≠ "" → decodes e = true →
      detect_encoding raised res decodes = e) ∧
    (raised = false →
      (¬ res.confidence < mkRat 7 10 ∨ common_encodings.find? decodes = none) →
      (∀ e, res.encoding = some e → e = "" ∨ decodes e = false) →
      detect_encoding raised res decodes = "utf-8") := by
  have hscrut : (¬ res.confidence < mkRat 7 10 ∨ common_encodings.find? decodes = none) →
      (if res.confidence < mkRat 7 10 then common_encodings.find? decodes else none) = none := by
    rintro (h | h)
    · rw [if_neg h]
    · split
      · exact h
      · rfl
  refine ⟨?_, ?_, ?_, ?_, ?_⟩
  · cases raised with
    | true => simp [detect_encoding]
    | false =>
      simp only [detect_encoding, Bool.false_eq_true, if_false]
      cases hl : (if res.confidence < mkRat 7 10 then common_encodings.find? decodes else none) with
      | some e =>
        have hfind : common_encodings.find? decodes = some e := by
          revert hl
          split
          · exact fun hl => hl
          · exact fun hl => by cases hl
        have hmem := List.mem_of_find?_eq_some hfind
        fin_cases hmem <;> simp
      | none =>
        cases he : res.encoding with
        | none => simp
        | some e =>
          by_cases hcond : (e != "" && decodes e) = true
          · simp only [hcond, if_true]
            simp only [Bool.and_eq_true, bne_iff_ne] at hcond
            exact hcond.1
          · simp only [hcond, if_false]
            simp
  · intro hr; subst hr; rfl
  · intro e hr hconf hfind; subst hr
    simp only [detect_encoding, Bool.false_eq_true, if_false, if_pos hconf, hfind]
  · intro e hr hcase he hne hdec; subst hr
    simp only [detect_encoding, Bool.false_eq_true, if_false, hscrut hcase, he]
    rw [if_pos (by simp [hne, hdec])]
  · intro hr hcase hall; subst hr
    simp only [detect_encoding, Bool.false_eq_true, if_false, hscrut hcase]
    cases he : res.encoding with
    | none => rfl
    | some e =>
      simp only [he]
      rcases hall e he with h | h
      · subst h; simp
      · rw [if_neg (by simp [h])]

/-- Witness for C6: low confidence with a trial-list hit returns that trial
encoding rather than chardet's answer. -/
theorem detect_encoding_total_spec_witness :
    detect_encoding false ⟨some "koi8-r", mkRat 1 2⟩ (fun e => e == "windows-1251") =
      "windows-1251" :=
  (detect_encoding_total_spec false ⟨some "koi8-r", mkRat 1 2⟩
    (fun e => e == "windows-1251")).2.2.1 "windows-1251" rfl (by decide) (by decide)

/-- Helper: closed form of the classification fold of `set_columns`. -/
theorem classifyColumns_eq (cleaned : List String) :
    classifyColumns cleaned =
      (cleaned.filter (matchesAny xSubs),
       cleaned.filter (fun c => !matchesAny xSubs c && matchesAny ySubs c),
       cleaned.filter (matchesAny wktSubs)) := by
  suffices h : ∀ (l : List String) (acc : List String × List String × List String),
      l.foldl classifyStep acc =
        (acc.1 ++ l.filter (matchesAny xSubs),
         acc.2.1 ++ l.filter (fun c => !matchesAny xSubs c && matchesAny ySubs c),
         acc.2.2 ++ l.filter (matchesAny wktSubs)) by
    simpa [classifyColumns] using h cleaned ([], [], [])
  intro l
  induction l with
  | nil => intro acc; simp
  | cons c t ih =>
    intro acc
    rw [List.foldl_cons, ih]
    by_cases hx : matchesAny xSubs c <;> by_cases hy : matchesAny ySubs c <;>
      by_cases hw : matchesAny wktSubs c <;>
        simp [classifyStep, List.filter_cons, hx, hy, hw, List.append_assoc,
          List.singleton_append, List.cons_append]

/-- C7: `set_columns` preselects 'WKT Geometry' with the first cleaned column
containing a WKT marker substring; otherwise 'Point (X/Y columns)' with the
first column containing an X marker and the first column, not itself
classified as X, containing a Y marker; otherwise 'No geometry'. -/
theorem set_columns_autodetect (columns : List String) :
    (∀ c, (columns.map (pyStrip quoteChars)).find? (matchesAny wktSubs) = some c →
      set_columns columns = GeomChoice.wktGeom c) ∧
    (∀ cx cy, (columns.map (pyStrip quoteChars)).find? (matchesAny wktSubs) = none →
      (columns.map (pyStrip quoteChars)).find? (matchesAny xSubs) = some cx →
      ((columns.map (pyStrip quoteChars)).filter (fun c => !matchesAny xSubs c)).find?
        (matchesAny ySubs) = some cy →
      set_columns columns = GeomChoice.pointXY cx cy) ∧
    ((columns.map (pyStrip quoteChars)).find? (matchesAny wktSubs) = none →
      ((columns.map (pyStrip quoteChars)).find? (matchesAny xSubs) = none ∨
       ((columns.map (pyStrip quoteChars)).filter (fun c => !matchesAny xSubs c)).find?
         (matchesAny ySubs) = none) →
      set_columns columns = GeomChoice.noGeometry) := by
  have hcls := classifyColumns_eq (columns.map (pyStrip quoteChars))
  refine ⟨?_, ?_, ?_⟩
  · intro c hf
    rw [find?_eq_head?_filter] at hf
    have hne : (columns.map (pyStrip quoteChars)).filter (matchesAny wktSubs) ≠ [] := by
      intro hh; rw [hh] at hf; cases hf
    have hhd := headD_of_head? "" hf
    simp only [set_columns, hcls]
    rw [if_pos hne, hhd]
  · intro cx cy hw hx hy
    rw [find?_eq_head?_filter] at hw hx
    rw [find?_filter_aux] at hy
    have hw' : (columns.map (pyStrip quoteChars)).filter (matchesAny wktSubs) = [] := by
      cases hll : (columns.map (pyStrip quoteChars)).filter (matchesAny wktSubs) with
      | nil => rfl
      | cons a t => rw [hll] at hw; cases hw
    have hxne : (columns.map (pyStrip quoteChars)).filter (matchesAny xSubs) ≠ [] := by
      intro hh; rw [hh] at hx; cases hx
    have hyne : (columns.map (pyStrip quoteChars)).filter
        (fun c => !matchesAny xSubs c && matchesAny ySubs c) ≠ [] := by
      intro hh; rw [hh] at hy; cases hy
    have hxhd := headD_of_head? "" hx
    have hyhd := headD_of_head? "" hy
    simp only [set_columns, hcls]
    rw [if_neg (fun hcon => hcon hw'), if_pos ⟨hxne, hyne⟩, hxhd, hyhd]
  · intro hw hcase
    rw [find?_eq_head?_filter] at hw
    have hw' : (columns.map (pyStrip quoteChars)).filter (matchesAny wktSubs) = [] := by
      cases hll : (columns.map (pyStrip quoteChars)).filter (matchesAny wktSubs) with
      | nil => rfl
      | cons a t => rw [hll] at hw; cases hw
    have hno : ¬ ((columns.map (pyStrip quoteChars)).filter (matchesAny xSubs) ≠ [] ∧
        (columns.map (pyStrip quoteChars)).filter
          (fun c => !matchesAny xSubs c && matchesAny ySubs c) ≠ []) := by
      rcases hcase with h | h
      · rw [find?_eq_head?_filter] at h
        intro hcon
        apply hcon.1
        cases hll : (columns.map (pyStrip quoteChars)).filter (matchesAny xSubs) with
        | nil => rfl
        | cons a t => rw [hll] at h; cases h
      · rw [find?_filter_aux] at h
        intro hcon
        apply hcon.2
        cases hll : (columns.map (pyStrip quoteChars)).filter
            (fun c => !matchesAny xSubs c && matchesAny ySubs c) with
        | nil => rfl
        | cons a t => rw [hll] at h; cases h
    simp only [set_columns, hcls]
    rw [if_neg (fun hcon => hcon hw'), if_neg hno]

/-- Witness for C7: no WKT column, so the first X-marked and first Y-marked
columns are preselected as Point X/Y. -/
theorem set_columns_autodetect_witness :
    set_columns ["id", "x_coord", "y_coord"] = GeomChoice.pointXY "x_coord" "y_coord" :=
  (set_columns_autodetect ["id", "x_coord", "y_coord"]).2.1 "x_coord" "y_coord"
    (by decide) (by decide) (by decide)

/-- Helper: `splitByChar` never returns the empty list. -/
theorem splitByChar_ne_nil (d : Char) (l : List Char) : splitByChar d l ≠ [] := by
  cases l with
  | nil => simp [splitByChar]
  | cons a r =>
    cases hsp : splitByChar d r with
    | nil => simp [splitByChar, hsp]
    | cons h t =>
      simp only [splitByChar, hsp]
      split <;> simp

/-- Helper: a non-blank line always parses to at least one field. -/
theorem csvSplitRow_ne_nil (d : Char) (s : String) (h : s ≠ "") : csvSplitRow d s ≠ [] := by
  simp only [csvSplitRow, if_neg h]
  intro hc
  exact splitByChar_ne_nil d s.data (by simpa using hc)

/-- Helper: the row-length scan succeeds exactly when every scanned row has
the header's field count. -/
theorem checkRows_none_iff (ncols : Nat) (rows : List (List String)) :
    ∀ i, checkRows ncols rows i = none ↔ ∀ r ∈ rows, r.length = ncols := by
  induction rows with
  | nil => intro i; simp [checkRows]
  | cons r rest ih =>
    intro i
    by_cases h : r.length = ncols
    · rw [show checkRows ncols (r :: rest) i = checkRows ncols rest (i + 1) from by
        simp [checkRows, h]]
      rw [ih (i + 1)]
      simp [h]
    · constructor
      · intro hc
        rw [show checkRows ncols (r :: rest) i
            = some ("Row " ++ toString (i + 2) ++ " has " ++ toString r.length ++
              " columns, expected " ++ toString ncols) from by simp [checkRows, h]] at hc
        cases hc
      · intro hall
        exact absurd (hall r (by simp)) h

/-- Helper: `validate_csv` succeeds, returning the cleaned header, whenever
the stripped first line is non-blank and the first five data rows have the
header's field count. -/
theorem validateLines_ok_of (lines : List String) (delim : Char)
    (h1 : pyStripWs (lines.headD "") ≠ "")
    (h5 : ∀ r ∈ (lines.drop 1).take 5,
      (csvSplitRow delim r).length = (csvSplitRow delim (pyStripWs (lines.headD ""))).length) :
    validateLines lines delim =
      Except.ok ((csvSplitRow delim (pyStripWs (lines.headD ""))).map (pyStrip quoteChars)) := by
  have h2 := csvSplitRow_ne_nil delim _ h1
  have hch : checkRows (csvSplitRow delim (pyStripWs (lines.headD ""))).length
      (((lines.drop 1).map (csvSplitRow delim)).take 5) 0 = none := by
    rw [show (((lines.drop 1).map (csvSplitRow delim)).take 5)
        = ((lines.drop 1).take 5).map (csvSplitRow delim) from by simp]
    refine (checkRows_none_iff _ _ 0).mpr ?_
    intro r hr
    rcases List.mem_map.mp hr with ⟨a, ha, rfl⟩
    exact h5 a ha
  simp only [validateLines, if_neg h1, if_neg h2, hch]

/-- C2: `validate_csv` raises exactly when the file cannot be opened/decoded,
or the stripped first line is blank, or the parsed header is empty, or one of
the first five data rows has a field count different from the header's;
otherwise it returns the header columns with surrounding quotes stripped. -/
theorem validate_csv_error_iff (oserr : String) (input : Option (List String)) (delim : Char) :
    ((∃ e, validate_csv oserr input delim = Except.error e) ↔
      (input = none ∨ ∃ lines, input = some lines ∧
        (pyStripWs (lines.headD "") = "" ∨
         csvSplitRow delim (pyStripWs (lines.headD "")) = [] ∨
         ∃ r ∈ (lines.drop 1).take 5,
           (csvSplitRow delim r).length ≠
             (csvSplitRow delim (pyStripWs (lines.headD ""))).length))) ∧
    (∀ lines, input = some lines →
      pyStripWs (lines.headD "") ≠ "" →
      (∀ r ∈ (lines.drop 1).take 5,
        (csvSplitRow delim r).length =
          (csvSplitRow delim (pyStripWs (lines.headD ""))).length) →
      validate_csv oserr input delim =
        Except.ok ((csvSplitRow delim (pyStripWs (lines.headD ""))).map
          (pyStrip quoteChars))) := by
  constructor
  · constructor
    · rintro ⟨e, he⟩
      cases input with
      | none => exact Or.inl rfl
      | some lines =>
        refine Or.inr ⟨lines, rfl, ?_⟩
        by_cases hA : pyStripWs (lines.headD "") = ""
        · exact Or.inl hA
        · refine Or.inr (Or.inr ?_)
          by_contra hno
          push_neg at hno
          have hok := validateLines_ok_of lines delim hA hno
          simp only [validate_csv] at he
          rw [hok] at he
          cases he
    · rintro (hni | ⟨lines, rfl, hcase⟩)
      · subst hni
        exact ⟨_, rfl⟩
      · rcases hcase with hA | hB | ⟨r, hr, hlen⟩
        · exact ⟨"CSV validation failed: File is empty",
            by simp only [validate_csv, validateLines, if_pos hA]⟩
        · by_cases hA : pyStripWs (lines.headD "") = ""
          · exact ⟨"CSV validation failed: File is empty",
              by simp only [validate_csv, validateLines, if_pos hA]⟩
          · exact absurd hB (csvSplitRow_ne_nil delim _ hA)
        · by_cases hA : pyStripWs (lines.headD "") = ""
          · exact ⟨"CSV validation failed: File is empty",
              by simp only [validate_csv, validateLines, if_pos hA]⟩
          · have h2 := csvSplitRow_ne_nil delim _ hA
            cases hc : checkRows (csvSplitRow delim (pyStripWs (lines.headD ""))).length
                (((lines.drop 1).map (csvSplitRow delim)).take 5) 0 with
            | none =>
              exfalso
              have := (checkRows_none_iff _ _ 0).mp (by
                rw [show (((lines.drop 1).take 5).map (csvSplitRow delim))
                    = (((lines.drop 1).map (csvSplitRow delim)).take 5) from by simp]
                exact hc) _ (List.mem_map_of_mem _ hr)
              exact hlen this
            | some msg =>
              exact ⟨"CSV validation failed: " ++ msg,
                by simp only [validate_csv, validateLines, if_neg hA, if_neg h2, hc]⟩
  · intro lines hin h1 h5
    subst hin
    exact validateLines_ok_of lines delim h1 h5

/-- Witness for C2: a well-formed two-line file validates to its quoted
header stripped of quotes. -/
theorem validate_csv_error_iff_witness :
    validate_csv "boom" (some ["\"a\",b", "1,2"]) ',' = Except.ok ["a", "b"] :=
  (validate_csv_error_iff "boom" (some ["\"a\",b", "1,2"]) ',').2 ["\"a\",b", "1,2"]
    rfl (by decide) (by decide)

/-- C10 counterexample: a file whose only line is empty has no data rows at
all, so every one of its (zero) first-five data rows trivially has the
header's field count, yet `validate_csv` raises "File is empty" instead of
succeeding. -/
theorem validate_csv_first_five_cex :
    ((([""] : List String).drop 1).take 5 = []) ∧
    validateLines [""] ',' = Except.error "CSV validation failed: File is empty" :=
  ⟨rfl, rfl⟩

/-- C10 (amended): structural validation inspects at most the first five data
rows: for every decodable file whose first line is non-blank after stripping
and whose first five data rows each have the header's field count,
`validate_csv` succeeds and returns the cleaned header columns regardless of
any later row; indeed the result depends only on the file's first six
lines. -/
theorem validate_csv_first_five_only (oserr : String) (lines : List String) (delim : Char)
    (h1 : pyStripWs (lines.headD "") ≠ "")
    (h5 : ∀ r ∈ (lines.drop 1).take 5,
      (csvSplitRow delim r).length = (csvSplitRow delim (pyStripWs (lines.headD ""))).length) :
    validate_csv oserr (some lines) delim =
      Except.ok ((csvSplitRow delim (pyStripWs (lines.headD ""))).map (pyStrip quoteChars)) ∧
    validateLines lines delim = validateLines (lines.take 6) delim := by
  refine ⟨validateLines_ok_of lines delim h1 h5, ?_⟩
  have e1 : (lines.take 6).headD "" = lines.headD "" := by
    cases lines <;> simp
  have e2 : (lines.take 6).drop 1 = (lines.drop 1).take 5 := by
    rw [List.drop_take]
  have key : (((lines.take 6).drop 1).map (csvSplitRow delim)).take 5 =
      ((lines.drop 1).map (csvSplitRow delim)).take 5 := by
    rw [e2]
    simp [List.take_take]
  simp only [validateLines, e1, key]

/-- Witness for C10: the mismatched sixth data row is never inspected. -/
theorem validate_csv_first_five_only_witness :
    validate_csv "boom" (some ["a,b", "1,2", "1,2", "1,2", "1,2", "1,2", "BAD"]) ',' =
      Except.ok ["a", "b"] :=
  (validate_csv_first_five_only "boom" ["a,b", "1,2", "1,2", "1,2", "1,2", "1,2", "BAD"] ','
    (by decide) (by decide)).1

/-- Helper: how `addToBucket` changes the contents observed at each key. -/
theorem bucketGet_addToBucket (bs : List (String × List QFeature)) (k : String) (f : QFeature)
    (t : String) :
    bucketGet t (addToBucket bs k f) =
      if t = k then bucketGet t bs ++ [f] else bucketGet t bs := by
  induction bs with
  | nil =>
    by_cases h : t = k
    · subst h; simp [addToBucket, bucketGet]
    · simp [addToBucket, bucketGet, h, Ne.symm h]
  | cons b rest ih =>
    by_cases hbk : b.1 = k
    · by_cases hbt : b.1 = t
      · have htk : t = k := hbt.symm.trans hbk
        simp [addToBucket, bucketGet, hbk, hbt, htk]
      · have htk : t ≠ k := fun h => hbt (hbk.trans h.symm)
        simp [addToBucket, bucketGet, hbk, hbt, htk, Ne.symm htk]
    · by_cases hbt : b.1 = t
      · have htk : ¬ t = k := fun h => hbk (hbt.trans h)
        simp [addToBucket, bucketGet, hbk, hbt, htk]
      · simp [addToBucket, bucketGet, hbk, hbt, ih]

/-- Helper: the bucketing fold sends each geometry type to exactly the kept
rows of that type, in file order. -/
theorem wktBuckets_get (wktType : String → Option String) (fns : List String)
    (wkt_col : String) :
    ∀ (rows : List (String → String)) (acc : List (String × List QFeature)) (t : String),
      bucketGet t (rows.foldl (wktStep wktType fns wkt_col) acc) =
        bucketGet t acc ++
          (rows.filter (fun row => row wkt_col != "" && wktType (row wkt_col) == some t)).map
            (fun row => { attrs := fns.map row, wkt := row wkt_col }) := by
  intro rows
  induction rows with
  | nil => intro acc t; simp
  | cons row rest ih =>
    intro acc t
    rw [List.foldl_cons]
    by_cases hw : row wkt_col = ""
    · rw [show wktStep wktType fns wkt_col acc row = acc from by simp [wktStep, hw]]
      rw [ih, List.filter_cons_of_neg (by simp [hw])]
    · cases ht : wktType (row wkt_col) with
      | none =>
        rw [show wktStep wktType fns wkt_col acc row = acc from by simp [wktStep, hw, ht]]
        rw [ih, List.filter_cons_of_neg (by simp [hw, ht])]
      | some t' =>
        rw [show wktStep wktType fns wkt_col acc row
            = addToBucket acc t' { attrs := fns.map row, wkt := row wkt_col } from by
          simp [wktStep, hw, ht]]
        rw [ih, bucketGet_addToBucket]
        by_cases htt : t = t'
        · subst htt
          rw [if_pos rfl, List.filter_cons_of_pos (by simp [hw, ht])]
          simp
        · rw [if_neg htt, List.filter_cons_of_neg (by simp [hw, ht, Ne.symm htt])]

/-- Helper: `addToBucket` only ever appends a fresh key at the end. -/
theorem addToBucket_keys (bs : List (String × List QFeature)) (k : String) (f : QFeature) :
    (addToBucket bs k f).map Prod.fst =
      if k ∈ bs.map Prod.fst then bs.map Prod.fst else bs.map Prod.fst ++ [k] := by
  induction bs with
  | nil => simp [addToBucket]
  | cons b rest ih =>
    by_cases h : b.1 = k
    · simp [addToBucket, h]
    · simp only [addToBucket, if_neg h, List.map_cons, ih]
      by_cases hm : k ∈ rest.map Prod.fst
      · simp [hm, h, Ne.symm h]
      · simp [hm, h, Ne.symm h]

/-- Helper: `addToBucket` keeps bucket keys distinct. -/
theorem addToBucket_keys_nodup (bs : List (String × List QFeature)) (k : String)
    (f : QFeature) (h : (bs.map Prod.fst).Nodup) :
    ((addToBucket bs k f).map Prod.fst).Nodup := by
  rw [addToBucket_keys]
  split
  · exact h
  · rename_i hnm
    refine List.Nodup.append h (List.nodup_singleton k) ?_
    intro a ha hak
    rw [List.mem_singleton] at hak
    exact hnm (hak ▸ ha)

/-- Helper: `addToBucket` keeps every bucket's feature list non-empty. -/
theorem addToBucket_vals (bs : List (String × List QFeature)) (k : String) (f : QFeature)
    (h : ∀ b ∈ bs, b.2 ≠ []) : ∀ b ∈ addToBucket bs k f, b.2 ≠ [] := by
  induction bs with
  | nil =>
    intro b hb
    simp only [addToBucket, List.mem_singleton] at hb
    rw [hb]
    simp
  | cons b0 rest ih =>
    intro b hb
    by_cases h0 : b0.1 = k
    · simp only [addToBucket, if_pos h0] at hb
      rcases List.mem_cons.mp hb with rfl | hbr
      · simp
      · exact h b (List.mem_cons_of_mem _ hbr)
    · simp only [addToBucket, if_neg h0] at hb
      rcases List.mem_cons.mp hb with rfl | hbr
      · exact h b (List.mem_cons_self _ _)
      · exact ih (fun b' hb' => h b' (List.mem_cons_of_mem _ hb')) b hbr

/-- Helper: the bucketing fold keeps keys distinct and feature lists
non-empty. -/
theorem wktBuckets_invariants (wktType : String → Option String) (fns : List String)
    (wkt_col : String) :
    ∀ (rows : List (String → String)) (acc : List (String × List QFeature)),
      (acc.map Prod.fst).Nodup → (∀ b ∈ acc, b.2 ≠ []) →
      (((rows.foldl (wktStep wktType fns wkt_col) acc).map Prod.fst).Nodup ∧
       ∀ b ∈ rows.foldl (wktStep wktType fns wkt_col) acc, b.2 ≠ []) := by
  intro rows
  induction rows with
  | nil => intro acc h1 h2; exact ⟨h1, h2⟩
  | cons row rest ih =>
    intro acc h1 h2
    rw [List.foldl_cons]
    by_cases hw : row wkt_col = ""
    · rw [show wktStep wktType fns wkt_col acc row = acc from by simp [wktStep, hw]]
      exact ih acc h1 h2
    · cases ht : wktType (row wkt_col) with
      | none =>
        rw [show wktStep wktType fns wkt_col acc row = acc from by simp [wktStep, hw, ht]]
        exact ih acc h1 h2
      | some t' =>
        rw [show wktStep wktType fns wkt_col acc row
            = addToBucket acc t' { attrs := fns.map row, wkt := row wkt_col } from by
          simp [wktStep, hw, ht]]
        exact ih _ (addToBucket_keys_nodup _ _ _ h1) (addToBucket_vals _ _ _ h2)

/-- C1: `process_wkt_geometries` is a group-by over the parsed rows: each row
with a blank WKT value or an unparseable/null geometry contributes nothing;
every other row contributes exactly one feature, whose attributes are its
values for the non-WKT columns in field order, to exactly the bucket of its
geometry-type display string (bucket keys are distinct); and one memory layer
is created per bucket, holding exactly that bucket's features, named with the
geometry-type suffix exactly when more than one geometry type occurred. -/
theorem process_wkt_geometries_groupby (wktType : String → Option String)
    (fieldnames : List String) (rows : List (String → String))
    (wkt_col crs base : String) :
    (∀ t, bucketGet t
        (wktBuckets wktType (fieldnames.filter (fun f => f != wkt_col)) wkt_col rows) =
      (rows.filter (fun row => row wkt_col != "" && wktType (row wkt_col) == some t)).map
        (fun row => { attrs := (fieldnames.filter (fun f => f != wkt_col)).map row,
                      wkt := row wkt_col })) ∧
    ((wktBuckets wktType (fieldnames.filter (fun f => f != wkt_col)) wkt_col rows).map
      Prod.fst).Nodup ∧
    (∀ b ∈ wktBuckets wktType (fieldnames.filter (fun f => f != wkt_col)) wkt_col rows,
      b.2 ≠ []) ∧
    process_wkt_geometries wktType fieldnames rows wkt_col crs base =
      (wktBuckets wktType (fieldnames.filter (fun f => f != wkt_col)) wkt_col rows).map
        (fun b =>
          { name := if (wktBuckets wktType (fieldnames.filter (fun f => f != wkt_col))
                wkt_col rows).length = 1 then base else base ++ "_" ++ b.1,
            uri := geom_type_map b.1 ++ "?crs=" ++ crs,
            features := b.2 }) := by
  have hinv := wktBuckets_invariants wktType (fieldnames.filter (fun f => f != wkt_col))
    wkt_col rows [] (by simp) (by simp)
  refine ⟨?_, hinv.1, hinv.2, ?_⟩
  · intro t
    simpa [wktBuckets, bucketGet] using
      wktBuckets_get wktType (fieldnames.filter (fun f => f != wkt_col)) wkt_col rows [] t
  · have hval : (wktBuckets wktType (fieldnames.filter (fun f => f != wkt_col)) wkt_col
        rows).filter (fun b => !b.2.isEmpty) =
        wktBuckets wktType (fieldnames.filter (fun f => f != wkt_col)) wkt_col rows :=
      List.filter_eq_self.mpr (fun b hb => by
        have := hinv.2 b hb
        simpa [List.isEmpty_iff] using this)
    simp only [process_wkt_geometries, wktLayers, hval]

/-- Witness for C1: of three rows (one Point, one blank WKT, one unparseable
WKT) only the Point row lands in the "Point" bucket, with the non-WKT column
value as its single attribute, and that bucket is non-empty. -/
theorem process_wkt_geometries_groupby_witness :
    bucketGet "Point"
      (wktBuckets (fun w => if w = "POINT(1 2)" then some "Point" else none)
        ["id"] "wkt"
        [fun f => if f = "wkt" then "POINT(1 2)" else "a",
         fun f => if f = "wkt" then "" else "b",
         fun f => if f = "wkt" then "BAD" else "c"]) =
      [{ attrs := ["a"], wkt := "POINT(1 2)" }] ∧
    ([{ attrs := ["a"], wkt := "POINT(1 2)" }] : List QFeature) ≠ [] := by
  have h := process_wkt_geometries_groupby
    (fun w => if w = "POINT(1 2)" then some "Point" else none)
    ["id", "wkt"]
    [fun f => if f = "wkt" then "POINT(1 2)" else "a",
     fun f => if f = "wkt" then "" else "b",
     fun f => if f = "wkt" then "BAD" else "c"] "wkt" "EPSG:4326" "layer"
  exact ⟨(h.1 "Point").trans (by decide),
    h.2.2.1 ("Point", [{ attrs := ["a"], wkt := "POINT(1 2)" }]) (by decide)⟩

/-- Helper: the cleanup loop never forgets an already-logged deletion
attempt. -/
theorem cleanupLoop_attempted_mono (unlinkOk : String → Bool) :
    ∀ (files : List String) (st : FSState) (x : String),
      x ∈ st.attempted → x ∈ (cleanupLoop unlinkOk files st).attempted := by
  intro files
  induction files with
  | nil => intro st x hx; exact hx
  | cons g rest ih =>
    intro st x hx
    simp only [cleanupLoop]
    apply ih
    by_cases hg : st.existing.contains g = true
    · simp only [if_pos hg]
      exact List.mem_append_left _ hx
    · simp only [if_neg hg]
      exact hx

/-- Helper: every file in the cleanup list that exists when cleanup starts
gets a deletion attempt logged. -/
theorem cleanupLoop_attempts (unlinkOk : String → Bool) :
    ∀ (files : List String) (st : FSState) (f : String),
      f ∈ files → f ∈ st.existing → f ∈ (cleanupLoop unlinkOk files st).attempted := by
  intro files
  induction files with
  | nil => intro st f hf _; simp at hf
  | cons g rest ih =>
    intro st f hf hex
    simp only [cleanupLoop]
    rcases List.mem_cons.mp hf with rfl | htail
    · have hc : st.existing.contains f = true := by simpa using hex
      apply cleanupLoop_attempted_mono
      simp only [if_pos hc]
      exact List.mem_append_right _ (by simp)
    · by_cases hgc : st.existing.contains g = true
      · by_cases hgf : g = f
        · subst hgf
          apply cleanupLoop_attempted_mono
          simp only [if_pos hgc]
          exact List.mem_append_right _ (by simp)
        · apply ih _ f htail
          simp only [if_pos hgc]
          by_cases hu : unlinkOk g = true
          · simp only [if_pos hu]
            exact (List.mem_erase_of_ne (fun h => hgf h.symm)).mpr hex
          · simp only [if_neg hu]
            exact hex
      · apply ih _ f htail
        simp only [if_neg hgc]
        exact hex

/-- C8: when extraction or processing raises inside `process_gzipped_csv`,
the result is the re-raised exception wrapped with 'Error processing CSV.GZ
file', the `temp_files` list ends empty, every previously tracked file that
existed had a deletion attempt, and (when the failure came from processing)
the freshly extracted temporary file had a deletion attempt too; on success
the extracted file's path remains tracked in `temp_files`. -/
theorem process_gzipped_csv_cleanup (unlinkOk : String → Bool) (tempDir : String)
    (extractOk procOk : Bool) (errExtract errProc : String) (file_path : String)
    (st : FSState) :
    ((extractOk = false ∨ procOk = false) →
      (∃ e, (process_gzipped_csv unlinkOk tempDir extractOk procOk errExtract errProc
          file_path st).1 = Except.error ("Error processing CSV.GZ file: " ++ e)) ∧
      (process_gzipped_csv unlinkOk tempDir extractOk procOk errExtract errProc
        file_path st).2.tracked = [] ∧
      (∀ f ∈ st.tracked, f ∈ st.existing →
        f ∈ (process_gzipped_csv unlinkOk tempDir extractOk procOk errExtract errProc
          file_path st).2.attempted)) ∧
    (extractOk = true → procOk = false →
      gzTempPath tempDir file_path ∈
        (process_gzipped_csv unlinkOk tempDir extractOk procOk errExtract errProc
          file_path st).2.attempted) ∧
    (extractOk = true → procOk = true →
      (process_gzipped_csv unlinkOk tempDir extractOk procOk errExtract errProc
        file_path st).1 = Except.ok () ∧
      gzTempPath tempDir file_path ∈
        (process_gzipped_csv unlinkOk tempDir extractOk procOk errExtract errProc
          file_path st).2.tracked) := by
  cases extractOk with
  | false =>
    refine ⟨?_, ?_, ?_⟩
    · intro _
      refine ⟨⟨errExtract, rfl⟩, rfl, ?_⟩
      intro f hf hex
      exact cleanupLoop_attempts unlinkOk st.tracked st f hf hex
    · intro h _
      cases h
    · intro h _
      cases h
  | true =>
    cases procOk with
    | false =>
      refine ⟨?_, ?_, ?_⟩
      · intro _
        refine ⟨⟨errProc, rfl⟩, rfl, ?_⟩
        intro f hf hex
        refine cleanupLoop_attempts unlinkOk (gzState tempDir file_path st).tracked
          (gzState tempDir file_path st) f (List.mem_append_left _ hf) ?_
        show f ∈ (if st.existing.contains (gzTempPath tempDir file_path) = true
          then st.existing else st.existing ++ [gzTempPath tempDir file_path])
        split
        · exact hex
        · exact List.mem_append_left _ hex
      · intro _ _
        refine cleanupLoop_attempts unlinkOk (gzState tempDir file_path st).tracked
          (gzState tempDir file_path st) (gzTempPath tempDir file_path)
          (List.mem_append_right _ (by simp)) ?_
        show gzTempPath tempDir file_path ∈
          (if st.existing.contains (gzTempPath tempDir file_path) = true
            then st.existing else st.existing ++ [gzTempPath tempDir file_path])
        split
        · rename_i hc
          simpa using hc
        · exact List.mem_append_right _ (by simp)
      · intro _ h
        cases h
    | true =>
      refine ⟨?_, ?_, ?_⟩
      · rintro (h | h) <;> cases h
      · intro _ h
        cases h
      · intro _ _
        refine ⟨rfl, ?_⟩
        show gzTempPath tempDir file_path ∈ st.tracked ++ [gzTempPath tempDir file_path]
        exact List.mem_append_right _ (by simp)

/-- Witness for C8: with one stale tracked file and a processing failure, the
tracking list ends empty and both the stale file and the fresh extraction get
deletion attempts. -/
theorem process_gzipped_csv_cleanup_witness :
    (process_gzipped_csv (fun _ => true) "/tmp" true false "gzerr" "procerr" "d.csv.gz"
      { existing := ["old.csv"], tracked := ["old.csv"], attempted := [] }).2.tracked = [] ∧
    "old.csv" ∈ (process_gzipped_csv (fun _ => true) "/tmp" true false "gzerr" "procerr"
      "d.csv.gz"
      { existing := ["old.csv"], tracked := ["old.csv"], attempted := [] }).2.attempted ∧
    "/tmp/d.csv" ∈ (process_gzipped_csv (fun _ => true) "/tmp" true false "gzerr" "procerr"
      "d.csv.gz"
      { existing := ["old.csv"], tracked := ["old.csv"], attempted := [] }).2.attempted :=
  ⟨((process_gzipped_csv_cleanup (fun _ => true) "/tmp" true false "gzerr" "procerr"
      "d.csv.gz" { existing := ["old.csv"], tracked := ["old.csv"], attempted := [] }).1
      (Or.inr rfl)).2.1,
   ((process_gzipped_csv_cleanup (fun _ => true) "/tmp" true false "gzerr" "procerr"
      "d.csv.gz" { existing := ["old.csv"], tracked := ["old.csv"], attempted := [] }).1
      (Or.inr rfl)).2.2 "old.csv" (by decide) (by decide),
   (process_gzipped_csv_cleanup (fun _ => true) "/tmp" true false "gzerr" "procerr"
      "d.csv.gz" { existing := ["old.csv"], tracked := ["old.csv"], attempted := [] }).2.1
      rfl rfl⟩

end DragDropCsvModel
